import Mathlib

/-!
Shallow embedding of the multiworld core (manager, communicator, watchdog)
from `src/multiworld/communicator.py`, `src/multiworld/manager.py` and
`src/multiworld/watchdog.py`, together with theorems settling the spec claims.

Python dicts are embedded as functions into `Option`; raising an exception is
embedded as returning the error value alongside the state reached at the point
of the raise (Python exceptions do not roll back earlier mutations).  External
effects (the TCP rendezvous store, the transport's process-group init, the
transport call of a send/recv, the successive reads performed by a busy-wait
loop) are passed in as explicit oracle arguments.
-/

namespace Multiworld

/-- The transport functions a world is bound to by `_set_functions`
(`dist.isend` / `dist.irecv` for nccl, blocking `dist.send` / `dist.recv`
otherwise). -/
inductive DistFn
  | isend
  | irecv
  | blockingSend
  | blockingRecv
deriving DecidableEq

/-- Errors surfaced by the embedded operations.  `brokenWorld` embeds
`BrokenWorldException`, `valueError` the Python `ValueError`s raised by the
manager, `runtimeError` an unclassified transport `RuntimeError` that is
re-raised, `storeError` a failure of the external TCP store, and
`invalidArgument` the transport-side argument validation. -/
inductive MWError
  | brokenWorld (world msg : String)
  | valueError (msg : String)
  | runtimeError (msg : String)
  | storeError (msg : String)
  | invalidArgument (msg : String)
deriving DecidableEq

/-- Pointwise update of an embedded dict (`d[k] = v` for `v = some x`,
`del d[k]` for `v = none`). -/
def setKey {α : Type} (m : String → Option α) (k : String) (v : Option α) :
    String → Option α :=
  fun x => if x = k then v else m x

/-- Embeds `_errors_to_handle` from `communicator.py`: the substrings that classify a
transport `RuntimeError` as a broken-world fault. -/
def _errors_to_handle : List String :=
  ["NCCL Error 6",
   "NCCL communicator was aborted",
   "Connection reset by peer",
   "Connection closed by peer"]

/-- Python's `sub in s` substring test on strings. -/
def containsSubstr (s sub : String) : Bool :=
  (List.range (s.data.length + 1)).any fun i => sub.data.isPrefixOf (s.data.drop i)

/-- State of `WorldCommunicator`: the three per-world dicts. -/
structure WorldCommunicator where
  world_to_send_fn : String → Option DistFn
  world_to_recv_fn : String → Option DistFn
  broken_world : String → Option Bool

/-- A fresh communicator (`WorldCommunicator.__init__`). -/
def WorldCommunicator.init : WorldCommunicator :=
  { world_to_send_fn := fun _ => none
    world_to_recv_fn := fun _ => none
    broken_world := fun _ => none }

/-- Embeds `WorldCommunicator._set_functions`. -/
def WorldCommunicator._set_functions (c : WorldCommunicator) (w backend : String) :
    WorldCommunicator :=
  if backend = "nccl" then
    { c with
      world_to_send_fn := setKey c.world_to_send_fn w (some .isend)
      world_to_recv_fn := setKey c.world_to_recv_fn w (some .irecv) }
  else
    { c with
      world_to_send_fn := setKey c.world_to_send_fn w (some .blockingSend)
      world_to_recv_fn := setKey c.world_to_recv_fn w (some .blockingRecv) }

/-- Embeds `WorldCommunicator.add_world`: set the functions, then mark the world as
not broken. -/
def WorldCommunicator.add_world (c : WorldCommunicator) (w backend : String) :
    WorldCommunicator :=
  let c := c._set_functions w backend
  { c with broken_world := setKey c.broken_world w (some false) }

/-- Embeds `WorldCommunicator._reset_functions`: delete both function entries,
ignoring `KeyError`. -/
def WorldCommunicator._reset_functions (c : WorldCommunicator) (w : String) :
    WorldCommunicator :=
  { c with
    world_to_send_fn := setKey c.world_to_send_fn w none
    world_to_recv_fn := setKey c.world_to_recv_fn w none }

/-- Embeds `WorldCommunicator.remove_world`: reset the functions and set the broken
flag to true (the `except KeyError` around the assignment is dead code: a dict
assignment never raises `KeyError`). -/
def WorldCommunicator.remove_world (c : WorldCommunicator) (w : String) :
    WorldCommunicator :=
  let c := c._reset_functions w
  { c with broken_world := setKey c.broken_world w (some true) }

/-- Embeds `WorldCommunicator.is_broken`: `self._broken_world.get(world_name, True)`. -/
def WorldCommunicator.is_broken (c : WorldCommunicator) (w : String) : Bool :=
  (c.broken_world w).getD true

/-- Embeds `WorldCommunicator._get_fn`: look up the send/recv function for a world;
a missing entry (or an unknown op string) surfaces as
`BrokenWorldException(world, "function for {op} not found")`. -/
def WorldCommunicator._get_fn (c : WorldCommunicator) (w op : String) :
    Except MWError DistFn :=
  let r : Option DistFn :=
    if op = "send" then c.world_to_send_fn w
    else if op = "recv" then c.world_to_recv_fn w
    else none
  match r with
  | some f => .ok f
  | none => .error (.brokenWorld w ("function for " ++ op ++ " not found"))

/-- State of `WorldManager`, including the torch-level world registry
`_worlds` of the patched `torch.distributed` (a process-global dict in the
source, carried here as a field) and the event queue feeding the watchdog. -/
structure WorldManager where
  worlds_stores : String → Option Nat
  communicator : WorldCommunicator
  dist_c10d_worlds : String → Bool
  event_q : List (Nat × String × Nat × Nat)

/-- A fresh manager (`WorldManager.__init__`). -/
def WorldManager.init : WorldManager :=
  { worlds_stores := fun _ => none
    communicator := WorldCommunicator.init
    dist_c10d_worlds := fun _ => false
    event_q := [] }

/-- Embeds `WorldManager.add_world`: reject a name already present in the torch world
registry, otherwise register it there and in the communicator. -/
def WorldManager.add_world (m : WorldManager) (w backend : String) :
    Except MWError WorldManager :=
  if m.dist_c10d_worlds w then
    .error (.valueError ("World " ++ w ++ " already exists."))
  else
    .ok { m with
          dist_c10d_worlds := fun x => if x = w then true else m.dist_c10d_worlds x
          communicator := m.communicator.add_world w backend }

/-- Embeds `WorldManager.remove_world`: reject an unknown name, otherwise remove the
world from the communicator and drop the stored rendezvous handle.  The name
is not deleted from the torch world registry (`del dist_c10d_worlds[name]` is
commented out in the source). -/
def WorldManager.remove_world (m : WorldManager) (w : String) :
    Except MWError WorldManager :=
  if m.dist_c10d_worlds w then
    .ok { m with
          communicator := m.communicator.remove_world w
          worlds_stores := setKey m.worlds_stores w none }
  else
    .error (.valueError ("World " ++ w ++ " does not exist."))

/-- The loop body of `WorldCommunicator._handle_error`, iterating over the
classified substrings: on the first match, remove the world through the
manager and raise `BrokenWorldException`; if none matches, re-raise the
original error.  `remove_world`'s own `ValueError` would propagate. -/
def handleErrorLoop (m : WorldManager) (w msg : String) :
    List String → WorldManager × MWError
  | [] => (m, .runtimeError msg)
  | sn :: rest =>
    if containsSubstr msg sn then
      match m.remove_world w with
      | .ok m1 => (m1, .brokenWorld w msg)
      | .error e => (m, e)
    else handleErrorLoop m w msg rest

/-- Embeds `WorldCommunicator._handle_error` (acting on the combined state, since it
calls back into the manager). -/
def WorldManager._handle_error (m : WorldManager) (w msg : String) :
    WorldManager × MWError :=
  handleErrorLoop m w msg _errors_to_handle

/-- Whether a transport error message matches the classified set. -/
def classified (msg : String) : Bool :=
  _errors_to_handle.any fun sn => containsSubstr msg sn

/-- Modelled from the spec: the argument validation performed by the
transport's `init_process_group` (the repository's patched
`torch/distributed/distributed_c10d.py` is not under `src/`): fails with
`InvalidArgument` if `rank ≥ size` or `size < 1`. -/
def init_process_group_validate (rank size : Nat) : Option MWError :=
  if size < 1 ∨ size ≤ rank then some (.invalidArgument "invalid rank or world size")
  else none

/-- Embeds `WorldManager.initialize_world` together with `_init_process_group`.
`storeResult` is the outcome of the external `dist.TCPStore` creation
(`.ok id` on success), `pgResult` the outcome of the external part of
`dist.init_process_group` (`some msg` on failure).  The source order is:
`add_world`, then store creation, then process-group init (with the
spec-modelled validation), then recording the store and announcing the world
to the watchdog; an exception anywhere propagates without undoing earlier
steps. -/
def WorldManager.initialize_world (m : WorldManager) (w : String)
    (rank size : Nat) (backend : String)
    (storeResult : Except String Nat) (pgResult : Option String) :
    WorldManager × Option MWError :=
  match m.add_world w backend with
  | .error e => (m, some e)
  | .ok m1 =>
    match storeResult with
    | .error msg => (m1, some (.storeError msg))
    | .ok store =>
      match init_process_group_validate rank size with
      | some e => (m1, some e)
      | none =>
        match pgResult with
        | some msg => (m1, some (.runtimeError msg))
        | none =>
          ({ m1 with
             worlds_stores := setKey m1.worlds_stores w (some store)
             event_q := m1.event_q ++ [(store, w, rank, size)] }, none)

/-- Outcome of `_wait_work`'s busy-await loop. -/
inductive WaitOutcome
  | completed
  | raisedBroken
deriving DecidableEq

/-- Embeds `WorldCommunicator._wait_work` over the finite trace of observations the
loop makes: each pair is one iteration's reads `(work.is_completed(),
broken_world[world])` in that order (the broken flag is read only when the
work is incomplete).  `none` means the trace ended with the loop still
waiting. -/
def wait_work : List (Bool × Bool) → Option WaitOutcome
  | [] => none
  | (done, brk) :: rest =>
    if done then some .completed
    else if brk then some .raisedBroken
    else wait_work rest

/-- Outcome of a whole communicator operation. -/
inductive OpResult
  | ok
  | raised (e : MWError)
  | pending
deriving DecidableEq

/-- Whether an operation raised `InvalidArgument`. -/
def OpResult.raisesInvalidArgument : OpResult → Bool
  | .raised (.invalidArgument _) => true
  | _ => false

/-- Whether an operation raised `BrokenWorldException`. -/
def OpResult.raisesBrokenWorld : OpResult → Bool
  | .raised (.brokenWorld _ _) => true
  | _ => false

/-- The transport outcome of the offloaded `fn(tensor, ...)` call in
`send`/`recv`: an error message if it raised `RuntimeError`, otherwise
`none` for a non-`Work` return (blocking backend) or the busy-wait
observation trace for a returned `Work` handle. -/
def TransportCall : Type := Except String (Option (List (Bool × Bool)))

/-- Embeds `WorldCommunicator.send` on the combined state: `_get_fn`, then the
offloaded transport call, `_handle_error` on `RuntimeError`, and `_wait_work`
when a `Work` handle came back. -/
def WorldManager.send (m : WorldManager) (w : String) (tr : TransportCall) :
    WorldManager × OpResult :=
  match m.communicator._get_fn w "send" with
  | .error e => (m, .raised e)
  | .ok _fn =>
    match tr with
    | .error msg =>
      let r := m._handle_error w msg
      (r.1, .raised r.2)
    | .ok none => (m, .ok)
    | .ok (some obs) =>
      match wait_work obs with
      | some .completed => (m, .ok)
      | some .raisedBroken =>
        (m, .raised (.brokenWorld w "exception raised by watchdog"))
      | none => (m, .pending)

/-- Embeds `WorldCommunicator.recv`, same shape as `send`. -/
def WorldManager.recv (m : WorldManager) (w : String) (tr : TransportCall) :
    WorldManager × OpResult :=
  match m.communicator._get_fn w "recv" with
  | .error e => (m, .raised e)
  | .ok _fn =>
    match tr with
    | .error msg =>
      let r := m._handle_error w msg
      (r.1, .raised r.2)
    | .ok none => (m, .ok)
    | .ok (some obs) =>
      match wait_work obs with
      | some .completed => (m, .ok)
      | some .raisedBroken =>
        (m, .raised (.brokenWorld w "exception raised by watchdog"))
      | none => (m, .pending)

/-- One state-mutating operation of the manager/communicator pair, with its
external oracles.  `removeWorld` is both the public call and the cleanup
task's reaction to a watchdog event; `transportError` is `_handle_error`
firing during any communicator operation. -/
inductive SysOp
  | initWorld (w : String) (rank size : Nat) (backend : String)
      (storeResult : Except String Nat) (pgResult : Option String)
  | removeWorld (w : String)
  | transportError (w msg : String)

/-- Apply one operation, keeping the state reached even when the operation
raises. -/
def SysOp.apply (m : WorldManager) : SysOp → WorldManager
  | .initWorld w rank size backend st pg =>
    (m.initialize_world w rank size backend st pg).1
  | .removeWorld w =>
    match m.remove_world w with
    | .ok m1 => m1
    | .error _ => m
  | .transportError w msg => (m._handle_error w msg).1

/-- Run a sequence of operations. -/
def runOps (m : WorldManager) (ops : List SysOp) : WorldManager :=
  ops.foldl SysOp.apply m

/-- Communicator-only operations, for the trace characterization of
`is_broken`. -/
inductive CommOp
  | add (w backend : String)
  | remove (w : String)

/-- Apply one communicator operation. -/
def CommOp.apply (c : WorldCommunicator) : CommOp → WorldCommunicator
  | .add w backend => c.add_world w backend
  | .remove w => c.remove_world w

/-- Run communicator operations from a fresh communicator. -/
def runCommOps (ops : List CommOp) : WorldCommunicator :=
  ops.foldl CommOp.apply WorldCommunicator.init

/-- Whether a trace contains an `add` of `w` with no later `remove` of `w`. -/
def addedNotRemoved (ops : List CommOp) (w : String) : Bool :=
  ops.foldl
    (fun b op =>
      match op with
      | .add x _ => if x = w then true else b
      | .remove x => if x = w then false else b)
    false

/-! Watchdog (`src/multiworld/watchdog.py`). -/

/-- Embeds `UPDATES_PER_CHECK` from `watchdog.py`. -/
def UPDATES_PER_CHECK : Nat := 10

/-- Embeds `DEADLOCK_CHECK_WAIT_TIME` from `watchdog.py`. -/
def DEADLOCK_CHECK_WAIT_TIME : Nat := 5

/-- Embeds `DEADLOCK_CHECK_ITERATIONS` from `watchdog.py`. -/
def DEADLOCK_CHECK_ITERATIONS : Nat := 10

/-- Per-peer bookkeeping `WorldStatus` (the `broken` field is declared in the
source but never written by the check). -/
structure WorldStatus where
  tick : Nat
  broken : Bool
deriving DecidableEq

instance : Inhabited WorldStatus := ⟨⟨0, false⟩⟩

/-- Outcome of `store.get("watchdog/{world}/{rank}")`: the counter value, or
one of the two exception types `_do_check` catches. -/
inductive ReadResult
  | ok (t : Nat)
  | netError
  | storeError
deriving DecidableEq

/-- The condition under which `_do_check` declares rank `r` (a peer) dead:
the read raised `DistNetworkError`/`DistStoreError`, or the counter equals
the recorded tick. -/
def isBad (read : Nat → ReadResult) (sts : List WorldStatus) (r : Nat) : Bool :=
  match read r with
  | .ok t => (sts.getD r default).tick == t
  | .netError => true
  | .storeError => true

/-- The inner rank loop of `WatchDog._do_check` for one world: iterate over
the given ranks, skip `my_rank`, break reporting the world broken on a read
error or a stale counter, otherwise record the new tick and continue. -/
def checkLoop (read : Nat → ReadResult) (my_rank : Nat) (sts : List WorldStatus) :
    List Nat → Bool × List WorldStatus
  | [] => (false, sts)
  | rank :: rest =>
    if rank = my_rank then checkLoop read my_rank sts rest
    else
      match read rank with
      | .netError => (true, sts)
      | .storeError => (true, sts)
      | .ok t =>
        if (sts.getD rank default).tick = t then (true, sts)
        else
          checkLoop read my_rank
            (sts.set rank { sts.getD rank default with tick := t }) rest

/-- Embeds `WatchDog._do_check` restricted to one world: the rank loop runs over
`range(len(world_status_array))`. -/
def checkWorld (read : Nat → ReadResult) (my_rank : Nat)
    (sts : List WorldStatus) : Bool × List WorldStatus :=
  checkLoop read my_rank sts (List.range sts.length)

/-- Outcome of the heartbeat increment `store.add("watchdog/{world}/{rank}", 1)`
performed by `_monitor_thread` each tick: success, or the `DistNetworkError`
that the thread catches. -/
inductive AddResult
  | ok
  | netError
deriving DecidableEq

/-- One `_myworlds` entry `(store, rank, [WorldStatus])`, with the store
behaviour at this tick given as oracles: `store_add` is the outcome of this
tick's own heartbeat increment, `store_read` the counters returned for the
peer reads. -/
structure WorldEntry where
  name : String
  store_add : AddResult
  store_read : Nat → ReadResult
  my_rank : Nat
  statuses : List WorldStatus

/-- Whether this tick's `store.add` heartbeat increment raised the
`DistNetworkError` that `_monitor_thread` catches (putting the world into
its `broken_worlds` set). -/
def WorldEntry.add_failed (e : WorldEntry) : Bool :=
  match e.store_add with
  | AddResult.netError => true
  | AddResult.ok => false

/-- Embeds the cleanup logic of one `_monitor_thread` iteration (event-queue
handling aside): `broken_worlds` collects the worlds whose own heartbeat
increment raised `DistNetworkError`; `_do_check` (the `checkWorld` rank loop
per world) contributes the worlds it finds broken when
`tick % UPDATES_PER_CHECK == 0`; the union is deleted from `_myworlds` and
pushed onto the manager's action channel.  First component: the pushed
worlds; second: the surviving entries, with their status arrays updated when
the check ran. -/
def monitor_cleanup (tick : Nat) (worlds : List WorldEntry) :
    List String × List WorldEntry :=
  let results := worlds.map fun e =>
    (e,
     e.add_failed ||
       (if tick % UPDATES_PER_CHECK = 0
        then (checkWorld e.store_read e.my_rank e.statuses).1
        else false),
     if tick % UPDATES_PER_CHECK = 0
     then (checkWorld e.store_read e.my_rank e.statuses).2
     else e.statuses)
  ((results.filter fun p => p.2.1).map fun p => p.1.name,
   (results.filter fun p => !p.2.1).map fun p => { p.1 with statuses := p.2.2 })

/-- One iteration of `WatchDog._deadlock_check`, from the source's statement
order: send `SIGUSR1`, sleep (during which the handler may run and set
`_deadlock_check_var` to 1), kill the process if the variable is still 0,
otherwise reset it to 0.  `v` is the variable on entry, `fires` whether the
handler ran during the sleep; the result is (killed, variable after the
iteration). -/
def deadlock_check (v : Nat) (fires : Bool) : Bool × Nat :=
  let v1 := if fires then 1 else v
  if v1 = 0 then (true, v1) else (false, 0)

/-- The bounded probe loop of `_deadlock_check_thread` after one trigger:
run `deadlock_check` once per element of `fires` (one per iteration of
`range(DEADLOCK_CHECK_ITERATIONS)`), returning the iteration index at which
the process was killed, or `none` if the probe completed. -/
def deadlock_probe (v : Nat) : List Bool → Option Nat
  | [] => none
  | f :: rest =>
    let r := deadlock_check v f
    if r.1 then some 0 else (deadlock_probe r.2 rest).map (· + 1)

/-- The probe iteration in the step order the spec gives (reset the flag to
0 first, then signal, sleep, and kill iff the flag is still 0), used to state
the refinement. -/
def deadlock_probe_spec_order : List Bool → Option Nat
  | [] => none
  | f :: rest =>
    let v1 := if f then 1 else 0
    if v1 = 0 then some 0 else (deadlock_probe_spec_order rest).map (· + 1)

/-! Theorems. -/

theorem is_broken_foldl (ops : List CommOp) :
    ∀ (c : WorldCommunicator) (b : Bool) (w : String),
      (c.is_broken w = false ↔ b = true) →
      (((ops.foldl CommOp.apply c).is_broken w = false) ↔
        (ops.foldl
          (fun b op =>
            match op with
            | .add x _ => if x = w then true else b
            | .remove x => if x = w then false else b)
          b = true)) := by
  induction ops with
  | nil =>
    intro c b w h
    simpa using h
  | cons op rest ih =>
    intro c b w h
    cases op with
    | add x backend =>
      refine ih _ _ _ ?_
      by_cases hx : x = w
      · subst hx
        by_cases hbk : backend = "nccl" <;>
          simp [CommOp.apply, WorldCommunicator.add_world,
            WorldCommunicator._set_functions, WorldCommunicator.is_broken,
            setKey, hbk]
      · have hx' : ¬(w = x) := fun hw => hx hw.symm
        by_cases hbk : backend = "nccl" <;>
          simpa [CommOp.apply, WorldCommunicator.add_world,
            WorldCommunicator._set_functions, WorldCommunicator.is_broken,
            setKey, hbk, hx, hx'] using h
    | remove x =>
      refine ih _ _ _ ?_
      by_cases hx : x = w
      · subst hx
        simp [CommOp.apply, WorldCommunicator.remove_world,
          WorldCommunicator._reset_functions, WorldCommunicator.is_broken, setKey]
      · have hx' : ¬(w = x) := fun hw => hx hw.symm
        simpa [CommOp.apply, WorldCommunicator.remove_world,
          WorldCommunicator._reset_functions, WorldCommunicator.is_broken,
          setKey, hx, hx'] using h

/-- C10: `is_broken` returns true for every world name that was never added to
the communicator (the key being absent from `_broken_world` defaults to
true), and returns false exactly for a name whose latest `add_world` is not
followed by a `remove_world`. -/
theorem is_broken_iff_added_not_removed (ops : List CommOp) (w : String) :
    ((runCommOps ops).is_broken w = false) ↔ addedNotRemoved ops w = true := by
  have h := is_broken_foldl ops WorldCommunicator.init false w
    (by simp [WorldCommunicator.is_broken, WorldCommunicator.init])
  simpa [runCommOps, addedNotRemoved] using h

/-- C2: the `_wait_work` busy-await loop, run over a trace of observations in
which some check sees the work completed or the world broken, terminates at
the first such check: it returns normally when `is_completed()` is true
there, and raises `BrokenWorldException` when the work is incomplete and the
broken flag is true there; all earlier checks saw neither. -/
theorem wait_work_first_event (obs : List (Bool × Bool))
    (h : ∃ p ∈ obs, p.1 = true ∨ p.2 = true) :
    ∃ j, j < obs.length ∧ (∀ p ∈ obs.take j, p = (false, false)) ∧
      ((obs.getD j (false, false)).1 = true ∨ (obs.getD j (false, false)).2 = true) ∧
      wait_work obs =
        some (if (obs.getD j (false, false)).1 then .completed else .raisedBroken) := by
  induction obs with
  | nil => simp at h
  | cons x rest ih =>
    obtain ⟨d, b⟩ := x
    by_cases hd : d = true
    · subst hd
      exact ⟨0, by simp, by simp, by simp, by simp [wait_work]⟩
    · have hd' : d = false := by simpa using hd
      subst hd'
      by_cases hb : b = true
      · subst hb
        exact ⟨0, by simp, by simp, by simp, by simp [wait_work]⟩
      · have hb' : b = false := by simpa using hb
        subst hb'
        have hrest : ∃ p ∈ rest, p.1 = true ∨ p.2 = true := by
          rcases h with ⟨p, hp, hev⟩
          rcases List.mem_cons.1 hp with hp0 | hp1
          · subst hp0; simp at hev
          · exact ⟨p, hp1, hev⟩
        obtain ⟨j, hj, hpre, hev, heq⟩ := ih hrest
        refine ⟨j + 1, by simpa using hj, ?_, by simpa using hev, ?_⟩
        · intro p hp
          rcases List.mem_cons.1 (by simpa [List.take] using hp) with hp0 | hp1
          · exact hp0
          · exact hpre p hp1
        · simpa [wait_work] using heq

/-- C2 witness. -/
theorem wait_work_first_event_witness :
    ∃ j, j < ([((false : Bool), (false : Bool)), (false, true)]).length ∧
      (∀ p ∈ ([((false : Bool), (false : Bool)), (false, true)]).take j,
        p = (false, false)) ∧
      ((([((false : Bool), (false : Bool)), (false, true)]).getD j (false, false)).1 = true ∨
        (([((false : Bool), (false : Bool)), (false, true)]).getD j (false, false)).2 = true) ∧
      wait_work [((false : Bool), (false : Bool)), (false, true)] =
        some (if (([((false : Bool), (false : Bool)), (false, true)]).getD j
            (false, false)).1 then .completed else .raisedBroken) :=
  wait_work_first_event [(false, false), (false, true)]
    ⟨(false, true), by simp, Or.inr rfl⟩

theorem deadlock_probe_eq_spec_order (fires : List Bool) :
    deadlock_probe 0 fires = deadlock_probe_spec_order fires := by
  induction fires with
  | nil => rfl
  | cons f rest ih =>
    cases f <;> simp [deadlock_probe, deadlock_probe_spec_order, deadlock_check, ih]

theorem deadlock_probe_spec_order_some (fires : List Bool) :
    ∀ j, deadlock_probe_spec_order fires = some j →
      j < fires.length ∧ fires.getD j true = false ∧
        ∀ p ∈ fires.take j, p = true := by
  induction fires with
  | nil => intro j hj; simp [deadlock_probe_spec_order] at hj
  | cons f rest ih =>
    intro j hj
    cases f with
    | false =>
      simp [deadlock_probe_spec_order] at hj
      subst hj
      simp
    | true =>
      simp [deadlock_probe_spec_order] at hj
      obtain ⟨j', hj', hjs⟩ := hj
      obtain ⟨h1, h2, h3⟩ := ih j' hj'
      subst hjs
      refine ⟨by simpa using h1, by simpa using h2, ?_⟩
      intro p hp
      rcases List.mem_cons.1 (by simpa [List.take] using hp) with hp0 | hp1
      · exact hp0
      · exact h3 p hp1

theorem deadlock_probe_spec_order_none (fires : List Bool) :
    deadlock_probe_spec_order fires = none → ∀ p ∈ fires, p = true := by
  induction fires with
  | nil => intro _ p hp; simp at hp
  | cons f rest ih =>
    intro hn p hp
    cases f with
    | false => simp [deadlock_probe_spec_order] at hn
    | true =>
      simp [deadlock_probe_spec_order] at hn
      rcases List.mem_cons.1 hp with hp0 | hp1
      · simp [hp0]
      · exact ih hn p hp1

/-- C9: with the alive flag 0 on entry (its value after every previous
iteration and at process start), a deadlock-probe run over one trigger's
`DEADLOCK_CHECK_ITERATIONS` iterations behaves exactly as the reset-first
step order describes: the process is killed at iteration `j` iff the handler
did not fire during iteration `j`'s sleep and fired during every earlier
one, the kill happens within the `DEADLOCK_CHECK_ITERATIONS` bound, and the
probe survives the trigger iff the handler fired in every iteration. -/
theorem deadlock_probe_bounded (v : Nat) (fires : List Bool)
    (hv : v = 0) (hlen : fires.length = DEADLOCK_CHECK_ITERATIONS) :
    deadlock_probe v fires = deadlock_probe_spec_order fires ∧
    (∀ j, deadlock_probe v fires = some j →
      j < DEADLOCK_CHECK_ITERATIONS ∧ fires.getD j true = false ∧
        ∀ p ∈ fires.take j, p = true) ∧
    (deadlock_probe v fires = none → ∀ p ∈ fires, p = true) := by
  subst hv
  refine ⟨deadlock_probe_eq_spec_order fires, ?_, ?_⟩
  · intro j hj
    rw [deadlock_probe_eq_spec_order] at hj
    have h := deadlock_probe_spec_order_some fires j hj
    exact ⟨hlen ▸ h.1, h.2.1, h.2.2⟩
  · intro hn
    rw [deadlock_probe_eq_spec_order] at hn
    exact deadlock_probe_spec_order_none fires hn

/-- C9 witness. -/
theorem deadlock_probe_bounded_witness :
    deadlock_probe 0 [true, true, true, false, true, true, true, true, true, true] =
      deadlock_probe_spec_order
        [true, true, true, false, true, true, true, true, true, true] ∧
    (∀ j, deadlock_probe 0
        [true, true, true, false, true, true, true, true, true, true] = some j →
      j < DEADLOCK_CHECK_ITERATIONS ∧
        ([true, true, true, false, true, true, true, true, true, true]).getD j true
          = false ∧
        ∀ p ∈ ([true, true, true, false, true, true, true, true, true, true]).take j,
          p = true) ∧
    (deadlock_probe 0 [true, true, true, false, true, true, true, true, true, true]
        = none →
      ∀ p ∈ [true, true, true, false, true, true, true, true, true, true], p = true) :=
  deadlock_probe_bounded 0
    [true, true, true, false, true, true, true, true, true, true] rfl (by decide)

/-- C3: `_handle_error` on a known world removes the world (marking it
broken in the communicator and dropping its store) and raises
`BrokenWorldException` exactly when the transport error message contains one
of the four classified substrings; an unclassified message re-raises the
original error with the state untouched. -/
theorem handle_error_classification (m : WorldManager) (w msg : String)
    (hk : m.dist_c10d_worlds w = true) :
    (classified msg = true →
      m._handle_error w msg =
        ({ m with
           communicator := m.communicator.remove_world w
           worlds_stores := setKey m.worlds_stores w none },
         .brokenWorld w msg) ∧
      (m._handle_error w msg).1.communicator.is_broken w = true) ∧
    (classified msg = false →
      m._handle_error w msg = (m, .runtimeError msg)) := by
  have hrm : m.remove_world w =
      .ok { m with
            communicator := m.communicator.remove_world w
            worlds_stores := setKey m.worlds_stores w none } := by
    simp [WorldManager.remove_world, hk]
  constructor
  · intro hc
    have hres : m._handle_error w msg =
        ({ m with
           communicator := m.communicator.remove_world w
           worlds_stores := setKey m.worlds_stores w none },
         .brokenWorld w msg) := by
      simp only [classified, _errors_to_handle, List.any_cons, List.any_nil,
        Bool.or_eq_true, Bool.or_false] at hc
      simp only [WorldManager._handle_error, handleErrorLoop, _errors_to_handle]
      rcases h1 : containsSubstr msg "NCCL Error 6" with _ | _
      · rcases h2 : containsSubstr msg "NCCL communicator was aborted" with _ | _
        · rcases h3 : containsSubstr msg "Connection reset by peer" with _ | _
          · rcases h4 : containsSubstr msg "Connection closed by peer" with _ | _
            · simp [h1, h2, h3, h4] at hc
            · simp [h1, h2, h3, h4, hrm]
          · simp [h1, h2, h3, hrm]
        · simp [h1, h2, hrm]
      · simp [h1, hrm]
    refine ⟨hres, ?_⟩
    rw [hres]
    simp [WorldCommunicator.remove_world, WorldCommunicator._reset_functions,
      WorldCommunicator.is_broken, setKey]
  · intro hc
    simp only [classified, _errors_to_handle, List.any_cons, List.any_nil,
      Bool.or_eq_false_iff] at hc
    obtain ⟨hc1, hc2, hc3, hc4, -⟩ := hc
    simp [WorldManager._handle_error, handleErrorLoop, _errors_to_handle,
      hc1, hc2, hc3, hc4]

/-- C3 witness. -/
theorem handle_error_classification_witness :
    (classified "NCCL Error 6: remote peer failed" = true →
      ((WorldManager.init.initialize_world "w1" 0 1 "gloo" (.ok 5) none).1)._handle_error
          "w1" "NCCL Error 6: remote peer failed" =
        ({ (WorldManager.init.initialize_world "w1" 0 1 "gloo" (.ok 5) none).1 with
           communicator :=
             ((WorldManager.init.initialize_world "w1" 0 1 "gloo"
               (.ok 5) none).1).communicator.remove_world "w1"
           worlds_stores :=
             setKey ((WorldManager.init.initialize_world "w1" 0 1 "gloo"
               (.ok 5) none).1).worlds_stores "w1" none },
         .brokenWorld "w1" "NCCL Error 6: remote peer failed") ∧
      (((WorldManager.init.initialize_world "w1" 0 1 "gloo" (.ok 5) none).1)._handle_error
          "w1" "NCCL Error 6: remote peer failed").1.communicator.is_broken "w1" = true) ∧
    (classified "NCCL Error 6: remote peer failed" = false →
      ((WorldManager.init.initialize_world "w1" 0 1 "gloo" (.ok 5) none).1)._handle_error
          "w1" "NCCL Error 6: remote peer failed" =
        ((WorldManager.init.initialize_world "w1" 0 1 "gloo" (.ok 5) none).1,
         .runtimeError "NCCL Error 6: remote peer failed")) :=
  handle_error_classification
    (WorldManager.init.initialize_world "w1" 0 1 "gloo" (.ok 5) none).1
    "w1" "NCCL Error 6: remote peer failed" (by decide)

/-- C7 counterexample: `send` on a world that was never added fails with
`BrokenWorldException("function for send not found")`, not with an
`InvalidArgument` error, refuting the claim that an unknown world is
reported distinctly from brokenness. -/
theorem send_unknown_world_not_invalid_argument :
    (WorldManager.init.send "w1" (.ok none)).2.raisesInvalidArgument = false ∧
    (WorldManager.init.send "w1" (.ok none)).2.raisesBrokenWorld = true ∧
    (WorldManager.init.send "w1" (.ok none)).2 =
      .raised (.brokenWorld "w1" "function for send not found") := by
  decide

/-- C7 amended: `send` or `recv` on a world name with no registered transport
function (one never added, or already removed) raises `BrokenWorldException`
with message `function for send not found` / `function for recv not found`,
and leaves the state unchanged; the code does not distinguish an unknown
world from a broken one with an `InvalidArgument`-style error. -/
theorem unknown_world_raises_broken_world (m : WorldManager) (w : String)
    (tr : TransportCall)
    (hs : m.communicator.world_to_send_fn w = none)
    (hr : m.communicator.world_to_recv_fn w = none) :
    m.send w tr = (m, .raised (.brokenWorld w "function for send not found")) ∧
    m.recv w tr = (m, .raised (.brokenWorld w "function for recv not found")) := by
  constructor
  · simp only [WorldManager.send, WorldCommunicator._get_fn]
    simp [hs]
  · simp only [WorldManager.recv, WorldCommunicator._get_fn]
    simp [hr]

/-- C7 amended witness. -/
theorem unknown_world_raises_broken_world_witness :
    WorldManager.init.recv "w2" (.ok none) =
      (WorldManager.init, .raised (.brokenWorld "w2" "function for recv not found")) :=
  (unknown_world_raises_broken_world WorldManager.init "w2" (.ok none)
    rfl rfl).2

/-- C6 counterexample: `initialize_world("w9", rank = 1, size = 1)` (with the
spec-modelled transport validation) does surface `InvalidArgument`, but only
after `add_world` has already registered the world in the known-worlds
registry and the communicator, and after the store oracle has been consumed,
refuting the claim that the failure happens before any registration. -/
theorem initialize_world_invalid_rank_registers_first :
    (WorldManager.init.initialize_world "w9" 1 1 "gloo" (.ok 7) none).2 =
      some (.invalidArgument "invalid rank or world size") ∧
    (WorldManager.init.initialize_world "w9" 1 1 "gloo"
      (.ok 7) none).1.dist_c10d_worlds "w9" = true ∧
    (WorldManager.init.initialize_world "w9" 1 1 "gloo"
      (.ok 7) none).1.communicator.broken_world "w9" = some false := by
  decide

/-- C6 amended: for a fresh world name with a reachable store,
`initialize_world` with `rank ≥ size` or `size < 1` fails with the
spec-modelled `InvalidArgument` raised by the transport's process-group
init; the failure happens after the world was registered (and the
registration is not rolled back), and no store entry or watchdog
announcement is made. -/
theorem initialize_world_invalid_rank (m : WorldManager) (w : String)
    (rank size store : Nat) (backend : String)
    (hfresh : m.dist_c10d_worlds w = false)
    (hbad : size < 1 ∨ size ≤ rank) :
    (m.initialize_world w rank size backend (.ok store) none).2 =
      some (.invalidArgument "invalid rank or world size") ∧
    (m.initialize_world w rank size backend
      (.ok store) none).1.dist_c10d_worlds w = true ∧
    (m.initialize_world w rank size backend (.ok store) none).1.worlds_stores w =
      m.worlds_stores w ∧
    (m.initialize_world w rank size backend (.ok store) none).1.event_q =
      m.event_q := by
  have hval : init_process_group_validate rank size =
      some (.invalidArgument "invalid rank or world size") := by
    unfold init_process_group_validate
    rw [if_pos hbad]
  simp [WorldManager.initialize_world, WorldManager.add_world, hfresh, hval]

/-- C6 amended witness. -/
theorem initialize_world_invalid_rank_witness :
    (WorldManager.init.initialize_world "w9" 0 0 "gloo" (.ok 7) none).2 =
      some (.invalidArgument "invalid rank or world size") ∧
    (WorldManager.init.initialize_world "w9" 0 0 "gloo"
      (.ok 7) none).1.dist_c10d_worlds "w9" = true ∧
    (WorldManager.init.initialize_world "w9" 0 0 "gloo"
      (.ok 7) none).1.worlds_stores "w9" = WorldManager.init.worlds_stores "w9" ∧
    (WorldManager.init.initialize_world "w9" 0 0 "gloo" (.ok 7) none).1.event_q =
      WorldManager.init.event_q :=
  initialize_world_invalid_rank WorldManager.init "w9" 0 0 7 "gloo" rfl
    (Or.inl (by decide))

/-- C4 counterexample: when the store creation fails during
`initialize_world("w9", ...)` on a fresh manager, the error is surfaced, yet
`w9` remains registered in the known-worlds registry and in the
communicator's maps, refuting the claimed atomicity. -/
theorem initialize_world_store_failure_not_atomic :
    (WorldManager.init.initialize_world "w9" 0 2 "gloo"
      (.error "store timeout") none).2 = some (.storeError "store timeout") ∧
    (WorldManager.init.initialize_world "w9" 0 2 "gloo"
      (.error "store timeout") none).1.dist_c10d_worlds "w9" = true ∧
    (WorldManager.init.initialize_world "w9" 0 2 "gloo"
      (.error "store timeout") none).1.communicator.broken_world "w9" =
      some false ∧
    (WorldManager.init.initialize_world "w9" 0 2 "gloo"
      (.error "store timeout") none).1.communicator.world_to_send_fn "w9" =
      some .blockingSend := by
  decide

/-- C4 amended: when the rendezvous-store creation or the transport's
process-group init fails during `initialize_world` on a fresh world name,
the error is surfaced to the caller and no store entry or watchdog
announcement for the world is made, but the world remains registered in the
manager's known-worlds registry and in the communicator's maps (the
`add_world` step is not rolled back). -/
theorem initialize_world_failure_partial_state (m : WorldManager)
    (w : String) (rank size store : Nat) (backend msg pmsg : String)
    (hfresh : m.dist_c10d_worlds w = false)
    (hstore : m.worlds_stores w = none)
    (hvalid : 1 ≤ size ∧ rank < size) :
    ((m.initialize_world w rank size backend (.error msg) none).2 =
        some (.storeError msg) ∧
      (m.initialize_world w rank size backend
        (.error msg) none).1.worlds_stores w = none ∧
      (m.initialize_world w rank size backend (.error msg) none).1.event_q =
        m.event_q ∧
      (m.initialize_world w rank size backend
        (.error msg) none).1.dist_c10d_worlds w = true ∧
      (m.initialize_world w rank size backend
        (.error msg) none).1.communicator.broken_world w = some false) ∧
    ((m.initialize_world w rank size backend (.ok store) (some pmsg)).2 =
        some (.runtimeError pmsg) ∧
      (m.initialize_world w rank size backend
        (.ok store) (some pmsg)).1.worlds_stores w = none ∧
      (m.initialize_world w rank size backend (.ok store) (some pmsg)).1.event_q =
        m.event_q ∧
      (m.initialize_world w rank size backend
        (.ok store) (some pmsg)).1.dist_c10d_worlds w = true ∧
      (m.initialize_world w rank size backend
        (.ok store) (some pmsg)).1.communicator.broken_world w = some false) := by
  have hval : init_process_group_validate rank size = none := by
    have h1 : ¬(size < 1) := by omega
    have h2 : ¬(size ≤ rank) := by omega
    simp [init_process_group_validate, h1, h2]
  constructor
  · simp [WorldManager.initialize_world, WorldManager.add_world, hfresh,
      hstore, WorldCommunicator.add_world, WorldCommunicator._set_functions,
      setKey]
  · simp [WorldManager.initialize_world, WorldManager.add_world, hfresh,
      hstore, hval, WorldCommunicator.add_world,
      WorldCommunicator._set_functions, setKey]

/-- C4 amended witness. -/
theorem initialize_world_failure_partial_state_witness :
    (((WorldManager.init.initialize_world "w9" 0 2 "nccl"
        (.error "store timeout") none).2 = some (.storeError "store timeout") ∧
      (WorldManager.init.initialize_world "w9" 0 2 "nccl"
        (.error "store timeout") none).1.worlds_stores "w9" = none ∧
      (WorldManager.init.initialize_world "w9" 0 2 "nccl"
        (.error "store timeout") none).1.event_q = WorldManager.init.event_q ∧
      (WorldManager.init.initialize_world "w9" 0 2 "nccl"
        (.error "store timeout") none).1.dist_c10d_worlds "w9" = true ∧
      (WorldManager.init.initialize_world "w9" 0 2 "nccl"
        (.error "store timeout") none).1.communicator.broken_world "w9" =
        some false) ∧
    ((WorldManager.init.initialize_world "w9" 0 2 "nccl"
        (.ok 7) (some "init failed")).2 = some (.runtimeError "init failed") ∧
      (WorldManager.init.initialize_world "w9" 0 2 "nccl"
        (.ok 7) (some "init failed")).1.worlds_stores "w9" = none ∧
      (WorldManager.init.initialize_world "w9" 0 2 "nccl"
        (.ok 7) (some "init failed")).1.event_q = WorldManager.init.event_q ∧
      (WorldManager.init.initialize_world "w9" 0 2 "nccl"
        (.ok 7) (some "init failed")).1.dist_c10d_worlds "w9" = true ∧
      (WorldManager.init.initialize_world "w9" 0 2 "nccl"
        (.ok 7) (some "init failed")).1.communicator.broken_world "w9" =
        some false)) :=
  initialize_world_failure_partial_state WorldManager.init "w9" 0 2 7 "nccl"
    "store timeout" "init failed" rfl rfl (by omega)

theorem handleErrorLoop_preserves_broken (m : WorldManager) (w' msg w : String)
    (hb : m.communicator.broken_world w = some true)
    (hk : m.dist_c10d_worlds w = true) :
    ∀ l, (handleErrorLoop m w' msg l).1.communicator.broken_world w = some true ∧
      (handleErrorLoop m w' msg l).1.dist_c10d_worlds w = true := by
  intro l
  induction l with
  | nil => exact ⟨hb, hk⟩
  | cons sn rest ih =>
    simp only [handleErrorLoop]
    by_cases hc : containsSubstr msg sn = true
    · rw [if_pos hc]
      by_cases hw : m.dist_c10d_worlds w' = true
      · by_cases he : w = w'
        · subst he
          simp [WorldManager.remove_world, hw, WorldCommunicator.remove_world,
            WorldCommunicator._reset_functions, setKey, hk]
        · simp [WorldManager.remove_world, hw, WorldCommunicator.remove_world,
            WorldCommunicator._reset_functions, setKey, he, hb, hk]
      · simp [WorldManager.remove_world, hw, hb, hk]
    · rw [if_neg hc]
      exact ih

theorem step_preserves_broken_known (m : WorldManager) (op : SysOp) (w : String)
    (hb : m.communicator.broken_world w = some true)
    (hk : m.dist_c10d_worlds w = true) :
    (SysOp.apply m op).communicator.broken_world w = some true ∧
    (SysOp.apply m op).dist_c10d_worlds w = true := by
  cases op with
  | initWorld w' rank size backend st pg =>
    simp only [SysOp.apply, WorldManager.initialize_world]
    by_cases hw : m.dist_c10d_worlds w' = true
    · simp [WorldManager.add_world, hw, hb, hk]
    · have hne : ¬(w = w') := by
        intro h
        subst h
        exact hw hk
      have hadd : (m.communicator.add_world w' backend).broken_world w =
          some true := by
        by_cases hbk : backend = "nccl" <;>
          simp [WorldCommunicator.add_world, WorldCommunicator._set_functions,
            setKey, hbk, hne, hb]
      cases st with
      | error msg =>
        simp [WorldManager.add_world, hw, hadd, hne, hk]
      | ok store =>
        cases hval : init_process_group_validate rank size with
        | some e =>
          simp [WorldManager.add_world, hw, hval, hadd, hne, hk]
        | none =>
          cases pg with
          | some msg =>
            simp [WorldManager.add_world, hw, hval, hadd, hne, hk]
          | none =>
            simp [WorldManager.add_world, hw, hval, hadd, hne, hk]
  | removeWorld w' =>
    simp only [SysOp.apply]
    by_cases hw : m.dist_c10d_worlds w' = true
    · by_cases he : w = w'
      · subst he
        simp [WorldManager.remove_world, hw, WorldCommunicator.remove_world,
          WorldCommunicator._reset_functions, setKey, hk]
      · simp [WorldManager.remove_world, hw, WorldCommunicator.remove_world,
          WorldCommunicator._reset_functions, setKey, he, hb, hk]
    · simp [WorldManager.remove_world, hw, hb, hk]
  | transportError w' msg =>
    exact handleErrorLoop_preserves_broken m w' msg w hb hk _errors_to_handle

theorem runOps_preserves_broken_known (ops : List SysOp) :
    ∀ (m : WorldManager) (w : String),
      m.communicator.broken_world w = some true →
      m.dist_c10d_worlds w = true →
      (runOps m ops).communicator.broken_world w = some true ∧
        (runOps m ops).dist_c10d_worlds w = true := by
  induction ops with
  | nil => exact fun m w hb hk => ⟨hb, hk⟩
  | cons op rest ih =>
    intro m w hb hk
    have hstep := step_preserves_broken_known m op w hb hk
    exact ih (SysOp.apply m op) w hstep.1 hstep.2

/-- C1: once `remove_world` has set `broken[w]` to true, and while `w`
remains in the known-worlds registry, no sequence of manager or communicator
operations (re-initialization attempts, removals, transport-error handling)
ever resets the flag: `broken[w]` stays `some true` and every read through
`is_broken` returns true. -/
theorem broken_flag_monotonic (m : WorldManager) (ops : List SysOp)
    (w : String)
    (hb : m.communicator.broken_world w = some true)
    (hk : m.dist_c10d_worlds w = true) :
    (runOps m ops).communicator.broken_world w = some true ∧
    (runOps m ops).communicator.is_broken w = true := by
  have h := runOps_preserves_broken_known ops m w hb hk
  exact ⟨h.1, by simp [WorldCommunicator.is_broken, h.1]⟩

/-- C1 witness. -/
theorem broken_flag_monotonic_witness :
    (runOps
      (SysOp.apply
        (SysOp.apply WorldManager.init
          (.initWorld "w1" 0 1 "gloo" (.ok 3) none))
        (.removeWorld "w1"))
      [.initWorld "w1" 0 1 "gloo" (.ok 4) none,
       .transportError "w1" "Connection reset by peer"]).communicator.broken_world
        "w1" = some true ∧
    (runOps
      (SysOp.apply
        (SysOp.apply WorldManager.init
          (.initWorld "w1" 0 1 "gloo" (.ok 3) none))
        (.removeWorld "w1"))
      [.initWorld "w1" 0 1 "gloo" (.ok 4) none,
       .transportError "w1" "Connection reset by peer"]).communicator.is_broken
        "w1" = true :=
  broken_flag_monotonic
    (SysOp.apply
      (SysOp.apply WorldManager.init (.initWorld "w1" 0 1 "gloo" (.ok 3) none))
      (.removeWorld "w1"))
    [.initWorld "w1" 0 1 "gloo" (.ok 4) none,
     .transportError "w1" "Connection reset by peer"]
    "w1" (by decide) (by decide)

theorem handleErrorLoop_preserves_dead (m : WorldManager) (w' msg w : String)
    (hk : m.dist_c10d_worlds w = true)
    (hs : m.communicator.world_to_send_fn w = none)
    (hr : m.communicator.world_to_recv_fn w = none) :
    ∀ l, (handleErrorLoop m w' msg l).1.dist_c10d_worlds w = true ∧
      (handleErrorLoop m w' msg l).1.communicator.world_to_send_fn w = none ∧
      (handleErrorLoop m w' msg l).1.communicator.world_to_recv_fn w = none := by
  intro l
  induction l with
  | nil => exact ⟨hk, hs, hr⟩
  | cons sn rest ih =>
    simp only [handleErrorLoop]
    by_cases hc : containsSubstr msg sn = true
    · rw [if_pos hc]
      by_cases hw : m.dist_c10d_worlds w' = true
      · by_cases he : w = w'
        · subst he
          simp [WorldManager.remove_world, hw, WorldCommunicator.remove_world,
            WorldCommunicator._reset_functions, setKey, hk]
        · simp [WorldManager.remove_world, hw, WorldCommunicator.remove_world,
            WorldCommunicator._reset_functions, setKey, he, hk, hs, hr]
      · simp [WorldManager.remove_world, hw, hk, hs, hr]
    · rw [if_neg hc]
      exact ih

theorem step_preserves_dead (m : WorldManager) (op : SysOp) (w : String)
    (hk : m.dist_c10d_worlds w = true)
    (hs : m.communicator.world_to_send_fn w = none)
    (hr : m.communicator.world_to_recv_fn w = none) :
    (SysOp.apply m op).dist_c10d_worlds w = true ∧
    (SysOp.apply m op).communicator.world_to_send_fn w = none ∧
    (SysOp.apply m op).communicator.world_to_recv_fn w = none := by
  cases op with
  | initWorld w' rank size backend st pg =>
    simp only [SysOp.apply, WorldManager.initialize_world]
    by_cases hw : m.dist_c10d_worlds w' = true
    · simp [WorldManager.add_world, hw, hk, hs, hr]
    · have hne : ¬(w = w') := by
        intro h
        subst h
        exact hw hk
      have hadd : (m.communicator.add_world w' backend).world_to_send_fn w =
          none ∧ (m.communicator.add_world w' backend).world_to_recv_fn w =
          none := by
        by_cases hbk : backend = "nccl" <;>
          simp [WorldCommunicator.add_world, WorldCommunicator._set_functions,
            setKey, hbk, hne, hs, hr]
      cases st with
      | error msg =>
        simp [WorldManager.add_world, hw, hadd.1, hadd.2, hne, hk]
      | ok store =>
        cases hval : init_process_group_validate rank size with
        | some e =>
          simp [WorldManager.add_world, hw, hval, hadd.1, hadd.2, hne, hk]
        | none =>
          cases pg with
          | some msg =>
            simp [WorldManager.add_world, hw, hval, hadd.1, hadd.2, hne, hk]
          | none =>
            simp [WorldManager.add_world, hw, hval, hadd.1, hadd.2, hne, hk]
  | removeWorld w' =>
    simp only [SysOp.apply]
    by_cases hw : m.dist_c10d_worlds w' = true
    · by_cases he : w = w'
      · subst he
        simp [WorldManager.remove_world, hw, WorldCommunicator.remove_world,
          WorldCommunicator._reset_functions, setKey, hk]
      · simp [WorldManager.remove_world, hw, WorldCommunicator.remove_world,
          WorldCommunicator._reset_functions, setKey, he, hk, hs, hr]
    · simp [WorldManager.remove_world, hw, hk, hs, hr]
  | transportError w' msg =>
    exact handleErrorLoop_preserves_dead m w' msg w hk hs hr _errors_to_handle

theorem runOps_preserves_dead (ops : List SysOp) :
    ∀ (m : WorldManager) (w : String),
      m.dist_c10d_worlds w = true →
      m.communicator.world_to_send_fn w = none →
      m.communicator.world_to_recv_fn w = none →
      (runOps m ops).dist_c10d_worlds w = true ∧
        (runOps m ops).communicator.world_to_send_fn w = none ∧
        (runOps m ops).communicator.world_to_recv_fn w = none := by
  induction ops with
  | nil => exact fun m w hk hs hr => ⟨hk, hs, hr⟩
  | cons op rest ih =>
    intro m w hk hs hr
    have hstep := step_preserves_dead m op w hk hs hr
    exact ih (SysOp.apply m op) w hstep.1 hstep.2.1 hstep.2.2

/-- C8: once a known world `w` has been removed (equivalently, marked
broken), no subsequent sequence of manager or communicator operations —
including attempts to initialize a world under the same name, which the
registry rejects — makes `w` usable again: `is_broken w` stays true and
`_get_fn` keeps failing for both send and recv. -/
theorem removed_world_never_active (m : WorldManager) (ops : List SysOp)
    (w : String) (hk : m.dist_c10d_worlds w = true) :
    (runOps (SysOp.apply m (.removeWorld w)) ops).communicator.is_broken w =
      true ∧
    (runOps (SysOp.apply m (.removeWorld w)) ops).communicator._get_fn w
      "send" = .error (.brokenWorld w "function for send not found") ∧
    (runOps (SysOp.apply m (.removeWorld w)) ops).communicator._get_fn w
      "recv" = .error (.brokenWorld w "function for recv not found") := by
  have hm1 : SysOp.apply m (.removeWorld w) =
      { m with
        communicator := m.communicator.remove_world w
        worlds_stores := setKey m.worlds_stores w none } := by
    simp [SysOp.apply, WorldManager.remove_world, hk]
  have hb1 : (SysOp.apply m (.removeWorld w)).communicator.broken_world w =
      some true := by
    rw [hm1]
    simp [WorldCommunicator.remove_world, WorldCommunicator._reset_functions,
      setKey]
  have hk1 : (SysOp.apply m (.removeWorld w)).dist_c10d_worlds w = true := by
    rw [hm1]
    exact hk
  have hs1 : (SysOp.apply m
      (.removeWorld w)).communicator.world_to_send_fn w = none := by
    rw [hm1]
    simp [WorldCommunicator.remove_world, WorldCommunicator._reset_functions,
      setKey]
  have hr1 : (SysOp.apply m
      (.removeWorld w)).communicator.world_to_recv_fn w = none := by
    rw [hm1]
    simp [WorldCommunicator.remove_world, WorldCommunicator._reset_functions,
      setKey]
  have hbrk := runOps_preserves_broken_known ops _ w hb1 hk1
  have hdead := runOps_preserves_dead ops _ w hk1 hs1 hr1
  refine ⟨by simp [WorldCommunicator.is_broken, hbrk.1], ?_, ?_⟩
  · simp only [WorldCommunicator._get_fn]
    simp [hdead.2.1]
  · simp only [WorldCommunicator._get_fn]
    simp [hdead.2.2]

/-- C8 witness. -/
theorem removed_world_never_active_witness :
    (runOps
      (SysOp.apply
        (SysOp.apply WorldManager.init
          (.initWorld "w1" 0 2 "nccl" (.ok 3) none))
        (.removeWorld "w1"))
      [.initWorld "w1" 0 2 "nccl" (.ok 4) none]).communicator.is_broken "w1" =
      true ∧
    (runOps
      (SysOp.apply
        (SysOp.apply WorldManager.init
          (.initWorld "w1" 0 2 "nccl" (.ok 3) none))
        (.removeWorld "w1"))
      [.initWorld "w1" 0 2 "nccl" (.ok 4) none]).communicator._get_fn "w1"
        "send" = .error (.brokenWorld "w1" "function for send not found") ∧
    (runOps
      (SysOp.apply
        (SysOp.apply WorldManager.init
          (.initWorld "w1" 0 2 "nccl" (.ok 3) none))
        (.removeWorld "w1"))
      [.initWorld "w1" 0 2 "nccl" (.ok 4) none]).communicator._get_fn "w1"
        "recv" = .error (.brokenWorld "w1" "function for recv not found") :=
  removed_world_never_active
    (SysOp.apply WorldManager.init (.initWorld "w1" 0 2 "nccl" (.ok 3) none))
    [.initWorld "w1" 0 2 "nccl" (.ok 4) none] "w1" (by decide)

theorem getD_set_ne (sts : List WorldStatus) (i j : Nat) (a : WorldStatus)
    (h : i ≠ j) : (sts.set i a).getD j default = sts.getD j default := by
  simp [List.getD, List.getElem?_set_ne h]

theorem getD_set_self (sts : List WorldStatus) (i : Nat) (a : WorldStatus)
    (h : i < sts.length) : (sts.set i a).getD i default = a := by
  simp [List.getD, List.getElem?_set_self', List.getElem?_eq_getElem, h]

theorem isBad_set_ne (read : Nat → ReadResult) (sts : List WorldStatus)
    (i k : Nat) (a : WorldStatus) (h : i ≠ k) :
    isBad read (sts.set i a) k = isBad read sts k := by
  unfold isBad
  rw [getD_set_ne sts i k a h]

theorem checkLoop_true_iff (read : Nat → ReadResult) (my_rank : Nat) :
    ∀ (ranks : List Nat) (sts : List WorldStatus), ranks.Nodup →
      ((checkLoop read my_rank sts ranks).1 = true ↔
        ∃ k ∈ ranks, k ≠ my_rank ∧ isBad read sts k = true) := by
  intro ranks
  induction ranks with
  | nil =>
    intro sts _
    simp [checkLoop]
  | cons rank rest ih =>
    intro sts hnd
    have hnotmem : rank ∉ rest := (List.nodup_cons.1 hnd).1
    have hnd' : rest.Nodup := (List.nodup_cons.1 hnd).2
    by_cases hmr : rank = my_rank
    · subst hmr
      simp only [checkLoop, eq_self_iff_true, if_true]
      rw [ih sts hnd']
      constructor
      · rintro ⟨k, hk, hkm, hbad⟩
        exact ⟨k, List.mem_cons_of_mem _ hk, hkm, hbad⟩
      · rintro ⟨k, hk, hkm, hbad⟩
        rcases List.mem_cons.1 hk with h0 | h1
        · exact absurd h0 hkm
        · exact ⟨k, h1, hkm, hbad⟩
    · simp only [checkLoop, if_neg hmr]
      cases hrd : read rank with
      | netError =>
        constructor
        · intro _
          exact ⟨rank, List.mem_cons_self _ _, hmr, by simp [isBad, hrd]⟩
        · intro _
          rfl
      | storeError =>
        constructor
        · intro _
          exact ⟨rank, List.mem_cons_self _ _, hmr, by simp [isBad, hrd]⟩
        · intro _
          rfl
      | ok t =>
        dsimp only
        by_cases ht : (sts.getD rank default).tick = t
        · rw [if_pos ht]
          constructor
          · intro _
            exact ⟨rank, List.mem_cons_self _ _, hmr,
              by simpa [isBad, hrd] using ht⟩
          · intro _
            rfl
        · rw [if_neg ht]
          rw [ih _ hnd']
          constructor
          · rintro ⟨k, hk, hkm, hbad⟩
            have hkr : rank ≠ k := fun h => hnotmem (h ▸ hk)
            refine ⟨k, List.mem_cons_of_mem _ hk, hkm, ?_⟩
            rwa [isBad_set_ne read sts rank k _ hkr] at hbad
          · rintro ⟨k, hk, hkm, hbad⟩
            rcases List.mem_cons.1 hk with h0 | h1
            · subst h0
              have ht' : (sts.getD k default).tick = t := by
                simpa [isBad, hrd] using hbad
              exact absurd ht' ht
            · have hkr : rank ≠ k := fun h => hnotmem (h ▸ h1)
              exact ⟨k, h1, hkm, by
                rwa [isBad_set_ne read sts rank k _ hkr]⟩

theorem checkLoop_false_updates (read : Nat → ReadResult) (my_rank : Nat) :
    ∀ (ranks : List Nat) (sts : List WorldStatus), ranks.Nodup →
      (checkLoop read my_rank sts ranks).1 = false →
      ((checkLoop read my_rank sts ranks).2.length = sts.length ∧
        (∀ k, k ∉ ranks →
          (checkLoop read my_rank sts ranks).2.getD k default =
            sts.getD k default) ∧
        (∀ k ∈ ranks, k = my_rank →
          (checkLoop read my_rank sts ranks).2.getD k default =
            sts.getD k default) ∧
        (∀ k ∈ ranks, k ≠ my_rank → k < sts.length →
          ∃ t, read k = .ok t ∧
            (checkLoop read my_rank sts ranks).2.getD k default =
              { sts.getD k default with tick := t })) := by
  intro ranks
  induction ranks with
  | nil =>
    intro sts _ _
    refine ⟨rfl, fun k _ => rfl, ?_, ?_⟩
    · intro k hk
      simp at hk
    · intro k hk
      simp at hk
  | cons rank rest ih =>
    intro sts hnd hf
    have hnotmem : rank ∉ rest := (List.nodup_cons.1 hnd).1
    have hnd' : rest.Nodup := (List.nodup_cons.1 hnd).2
    by_cases hmr : rank = my_rank
    · subst hmr
      simp only [checkLoop, eq_self_iff_true, if_true] at hf ⊢
      obtain ⟨ih1, ih2, ih3, ih4⟩ := ih sts hnd' hf
      refine ⟨ih1, ?_, ?_, ?_⟩
      · intro k hk
        exact ih2 k (fun h1 => hk (List.mem_cons_of_mem _ h1))
      · intro k hk hkm
        rcases List.mem_cons.1 hk with h0 | h1
        · subst h0
          exact ih2 k hnotmem
        · exact ih3 k h1 hkm
      · intro k hk hkm hlt
        rcases List.mem_cons.1 hk with h0 | h1
        · exact absurd h0 hkm
        · exact ih4 k h1 hkm hlt
    · simp only [checkLoop, if_neg hmr] at hf ⊢
      cases hrd : read rank with
      | netError => simp [hrd] at hf
      | storeError => simp [hrd] at hf
      | ok t =>
        rw [hrd] at hf
        dsimp only at hf ⊢
        by_cases ht : (sts.getD rank default).tick = t
        · rw [if_pos ht] at hf
          simp at hf
        · rw [if_neg ht] at hf ⊢
          obtain ⟨ih1, ih2, ih3, ih4⟩ :=
            ih (sts.set rank { sts.getD rank default with tick := t }) hnd' hf
          have hlen : (sts.set rank
              { sts.getD rank default with tick := t }).length = sts.length := by
            simp
          refine ⟨by rw [ih1, hlen], ?_, ?_, ?_⟩
          · intro k hk
            have hk1 : k ∉ rest := fun h1 => hk (List.mem_cons_of_mem _ h1)
            have hkr : rank ≠ k := fun h => hk (h ▸ List.mem_cons_self _ _)
            rw [ih2 k hk1, getD_set_ne sts rank k _ hkr]
          · intro k hk hkm
            rcases List.mem_cons.1 hk with h0 | h1
            · exact absurd (h0.symm.trans hkm) hmr
            · have hkr : rank ≠ k := fun h => hnotmem (h ▸ h1)
              rw [ih3 k h1 hkm, getD_set_ne sts rank k _ hkr]
          · intro k hk hkm hlt
            rcases List.mem_cons.1 hk with h0 | h1
            · subst h0
              refine ⟨t, hrd, ?_⟩
              rw [ih2 k hnotmem, getD_set_self sts k _ hlt]
            · have hkr : rank ≠ k := fun h => hnotmem (h ▸ h1)
              obtain ⟨t', hrd', heq⟩ := ih4 k h1 hkm (by rw [hlen]; exact hlt)
              refine ⟨t', hrd', ?_⟩
              rw [heq, getD_set_ne sts rank k _ hkr]

theorem checkWorld_true_iff (read : Nat → ReadResult) (my_rank : Nat)
    (sts : List WorldStatus) :
    (checkWorld read my_rank sts).1 = true ↔
      ∃ k, k < sts.length ∧ k ≠ my_rank ∧ isBad read sts k = true := by
  rw [checkWorld,
    checkLoop_true_iff read my_rank (List.range sts.length) sts
      (List.nodup_range _)]
  constructor
  · rintro ⟨k, hk, hkm, hbad⟩
    exact ⟨k, List.mem_range.1 hk, hkm, hbad⟩
  · rintro ⟨k, hk, hkm, hbad⟩
    exact ⟨k, List.mem_range.2 hk, hkm, hbad⟩

/-- C5 counterexample: on a liveness-check tick, a world whose own heartbeat
increment (`store.add`) raised `DistNetworkError` is pushed onto the
manager's action channel by `_monitor_thread` even though its only peer's
counter read succeeded with an advanced value and `_do_check` found nothing
wrong, refuting the claimed peer-read-only iff and the claim that such a
world stays live. -/
theorem monitor_push_without_peer_fault :
    "w1" ∈ (monitor_cleanup 0
      [{ name := "w1", store_add := AddResult.netError,
         store_read := fun k => ReadResult.ok (7 * k + 3), my_rank := 0,
         statuses := [⟨0, false⟩, ⟨5, false⟩] }]).1 ∧
    (0 : Nat) % UPDATES_PER_CHECK = 0 ∧
    (checkWorld (fun k => ReadResult.ok (7 * k + 3)) 0
      [⟨0, false⟩, ⟨5, false⟩]).1 = false ∧
    isBad (fun k => ReadResult.ok (7 * k + 3)) [⟨0, false⟩, ⟨5, false⟩] 1 =
      false := by
  decide

/-- C5 amended: at a liveness check (a tick with
`tick % UPDATES_PER_CHECK == 0`), a world is marked broken and pushed onto
the manager's action channel if and only if some peer rank (own rank
skipped) raised `DistNetworkError`/`DistStoreError` on the counter read or
returned a counter equal to the previously recorded tick, or the world's own
heartbeat increment (`store.add`) raised `DistNetworkError` on that tick;
when none of these holds, every peer's recorded tick is updated to the value
read, the own entry and out-of-range indices are untouched, and the world
stays live. -/
theorem monitor_cleanup_liveness (tick : Nat) (read : Nat → ReadResult)
    (my_rank : Nat) (sts : List WorldStatus) (ws : List WorldEntry)
    (w : String) (hc : tick % UPDATES_PER_CHECK = 0) :
    ((checkWorld read my_rank sts).1 = true ↔
      ∃ k, k < sts.length ∧ k ≠ my_rank ∧ isBad read sts k = true) ∧
    ((checkWorld read my_rank sts).1 = false →
      (checkWorld read my_rank sts).2.length = sts.length ∧
      (∀ k, k < sts.length → k ≠ my_rank →
        ∃ t, read k = .ok t ∧
          (checkWorld read my_rank sts).2.getD k default =
            { sts.getD k default with tick := t }) ∧
      (∀ k, k = my_rank ∨ sts.length ≤ k →
        (checkWorld read my_rank sts).2.getD k default =
          sts.getD k default)) ∧
    (w ∈ (monitor_cleanup tick ws).1 ↔
      ∃ e ∈ ws, e.name = w ∧
        (e.store_add = AddResult.netError ∨
          ∃ k, k < e.statuses.length ∧ k ≠ e.my_rank ∧
            isBad e.store_read e.statuses k = true)) ∧
    (∀ e ∈ ws, e.store_add = AddResult.ok →
      (checkWorld e.store_read e.my_rank e.statuses).1 = false →
      { e with statuses := (checkWorld e.store_read e.my_rank e.statuses).2 } ∈
        (monitor_cleanup tick ws).2) := by
  refine ⟨checkWorld_true_iff read my_rank sts, ?_, ?_, ?_⟩
  · intro hf
    obtain ⟨h1, h2, h3, h4⟩ :=
      checkLoop_false_updates read my_rank (List.range sts.length) sts
        (List.nodup_range _) hf
    refine ⟨h1, ?_, ?_⟩
    · intro k hlt hkm
      exact h4 k (List.mem_range.2 hlt) hkm hlt
    · intro k hk
      rcases hk with hk | hk
      · by_cases hlt : k < sts.length
        · exact h3 k (List.mem_range.2 hlt) hk
        · exact h2 k (fun h => hlt (List.mem_range.1 h))
      · exact h2 k (fun h => absurd (List.mem_range.1 h) (by omega))
  · simp only [monitor_cleanup, hc, if_pos, List.mem_map, List.mem_filter]
    constructor
    · rintro ⟨p, ⟨⟨a, ha, heq⟩, hflag⟩, hname⟩
      subst heq
      refine ⟨a, ha, by simpa using hname, ?_⟩
      have hflag' : a.add_failed = true ∨
          (checkWorld a.store_read a.my_rank a.statuses).1 = true := by
        simpa using hflag
      rcases hflag' with hadd | hchk
      · left
        cases h : a.store_add with
        | ok => rw [WorldEntry.add_failed, h] at hadd; cases hadd
        | netError => rfl
      · right
        exact (checkWorld_true_iff a.store_read a.my_rank a.statuses).1 hchk
    · rintro ⟨e, he, hname, hcond⟩
      have hflag : (e.add_failed ||
          (checkWorld e.store_read e.my_rank e.statuses).1) = true := by
        rcases hcond with hadd | hex
        · simp [WorldEntry.add_failed, hadd]
        · simp [(checkWorld_true_iff e.store_read e.my_rank e.statuses).2 hex]
      refine ⟨(e, e.add_failed ||
          (checkWorld e.store_read e.my_rank e.statuses).1,
          (checkWorld e.store_read e.my_rank e.statuses).2),
        ⟨⟨e, he, rfl⟩, by simpa using hflag⟩, hname⟩
  · intro e he hadd hchk
    simp only [monitor_cleanup, hc, if_pos, List.mem_map, List.mem_filter]
    have hflag : (e.add_failed ||
        (checkWorld e.store_read e.my_rank e.statuses).1) = false := by
      simp [WorldEntry.add_failed, hadd, hchk]
    refine ⟨(e, e.add_failed ||
        (checkWorld e.store_read e.my_rank e.statuses).1,
        (checkWorld e.store_read e.my_rank e.statuses).2),
      ⟨⟨e, he, rfl⟩, by simp [hflag]⟩, ?_⟩
    simp [hflag]

/-- C5 amended witness: on check tick 0, a world whose rank-1 peer returns a
counter equal to the recorded tick is found broken. -/
theorem monitor_cleanup_liveness_witness :
    (checkWorld (fun k => ReadResult.ok (5 * k)) 0
      [⟨0, false⟩, ⟨5, false⟩]).1 = true ↔
      ∃ k, k < ([(⟨0, false⟩ : WorldStatus), ⟨5, false⟩]).length ∧ k ≠ 0 ∧
        isBad (fun k => ReadResult.ok (5 * k)) [⟨0, false⟩, ⟨5, false⟩] k =
          true :=
  (monitor_cleanup_liveness 0 (fun k => ReadResult.ok (5 * k)) 0
    [⟨0, false⟩, ⟨5, false⟩] [] "w1" rfl).1

end Multiworld
